import Mathlib

/-!
# Verification of the heap-page storage core

A shallow embedding of the heap-page store (`page.rs`, `heapfile.rs`,
`storage_manager.rs`).  Machine integers (`u16` identifiers, offsets and
sizes) are modelled as `Nat` with explicit reductions modulo `2^16` at the
points where the source performs `u16` arithmetic or an `as` cast.  Byte
blocks with a fixed size in the source (the 4096-byte page data array, a
serialized page, the backing file) are modelled as total functions
`Nat → Nat` (the size is carried by the type in the source, or separately
for the file); variable-length record payloads (`Vec<u8>`) are `List Nat`.
Every store and load performed by the theorems below stays inside the
block bounds (an out-of-bounds index would abort the source program).
Fallible operations are modelled with `Option` / `Except`: a `none` or
`error` result marks a state in which the source program panics.
Source loops are modelled as fuel-indexed structural recursions; each
call site supplies fuel exceeding the loop's iteration count, so the
fuel-exhausted branch is never taken.
-/

set_option maxRecDepth 4000

/-- `PAGE_SIZE` from `common/src/lib.rs`. -/
def PAGE_SIZE : Nat := 4096

/-- Modulus of the 16-bit identifier/offset types (`PageId`, `SlotId`, `u16`). -/
def U16MOD : Nat := 65536

/-- Wrapping `u16` addition (release-mode overflow semantics). -/
def add16 (a b : Nat) : Nat := (a + b) % U16MOD

/-- Wrapping `u16` subtraction; callers pass values below `2^16`. -/
def sub16 (a b : Nat) : Nat := (a + U16MOD - b) % U16MOD

/-- `Slot` from `page.rs`: one slot-directory entry. -/
structure Slot where
  slot_id : Nat
  slot_offset : Nat
  size : Nat
deriving Repr, DecidableEq

instance : Inhabited Slot := ⟨⟨0, 0, 0⟩⟩

/-- `Header` from `page.rs`. -/
structure Header where
  page_id : Nat
  slots : List Slot
  largest_free_space : Nat
deriving Repr, DecidableEq

/-- `Page` from `page.rs`; the `[u8; PAGE_SIZE]` data array is a function
on indices. -/
structure Page where
  header : Header
  data : Nat → Nat

/-- `Slot::new`. -/
def Slot.new (slot_id slot_offset size : Nat) : Slot :=
  ⟨slot_id, slot_offset, size⟩

/-- `Page::new`: empty slot directory, data zeroed,
`largest_free_space = PAGE_SIZE - size_of(PageId) - size_of(u16) = 4092`. -/
def Page.new (page_id : Nat) : Page :=
  { header := { page_id := page_id, slots := [],
                largest_free_space := PAGE_SIZE - 2 - 2 },
    data := fun _ => 0 }

/-- `Page::get_page_id`. -/
def Page.get_page_id (p : Page) : Nat := p.header.page_id

/-- Overwrite `data[start .. start + bytes.length)` with `bytes`
(the `clone_from_slice` in `add_value`). -/
def writeRange (data : Nat → Nat) (start : Nat) (bytes : List Nat) : Nat → Nat :=
  fun i => if start ≤ i ∧ i < start + bytes.length then bytes.getD (i - start) 0 else data i

/-- Zero `data[start .. start + len)` (the zeroing loops in `delete_value`). -/
def zeroRange (data : Nat → Nat) (start len : Nat) : Nat → Nat :=
  fun i => if start ≤ i ∧ i < start + len then 0 else data i

/-- Copy `data[start .. start + len)` out as a list
(the `to_vec` of a slice in `get_value`). -/
def extractRange (data : Nat → Nat) (start len : Nat) : List Nat :=
  (List.range len).map fun k => data (start + k)

/-- Insert into a sorted list; building block of `sortNat`. -/
def insertSorted (x : Nat) : List Nat → List Nat
  | [] => [x]
  | y :: ys => if x ≤ y then x :: y :: ys else y :: insertSorted x ys

/-- Ascending sort of a `Nat` list, modelling `Vec::sort` on the copied
id vector in `find_free` (the source sorts a `Vec<u16>` ascending; the
sorting algorithm itself is observably irrelevant, only the order is). -/
def sortNat (l : List Nat) : List Nat := l.foldr insertSorted []

/-- The id-search loop of `find_free`: starting from candidate `i = 0`, the
source walks the sorted id vector while `id_vec[i] == i` and stops at the
first index where the candidate differs (or at the end).  Consuming the
sorted list keeps the element at index `i` at the head. -/
def firstFreeId : List Nat → Nat → Nat
  | [], i => i
  | x :: xs, i => if x = i then firstFreeId xs (i + 1) else i

/-- The offset-search loop of `find_free` (`while counter <= vec_len`),
with `fuel` bounding the iteration count (callers pass `vec_len + 1`, one
more than the loop can run).  Returns `none` if the loop falls through
without a `break`, which cannot happen because the `counter == vec_len`
arm always breaks; the source would subsequently panic on `place_in[1]`.
The `counter == vec_len` arm computes
`slot_vec[counter-1].slot_offset - input_size` with `u16` subtraction; the
gap arm compares against
`slot_vec[counter+1].slot_offset + slot_vec[counter+1].size`, a `u16`
addition. -/
def findStartLoop (slot_vec : List Slot) (input_size : Nat) : Nat → Nat → Option Nat
  | 0, _ => none
  | fuel + 1, counter =>
    if counter ≤ slot_vec.length then
      if counter = slot_vec.length then
        some (sub16 (slot_vec.getD (counter - 1) default).slot_offset (input_size % U16MOD))
      else
        let next := slot_vec.getD (counter + 1) default
        let cur := slot_vec.getD counter default
        if counter ≠ slot_vec.length - 1 ∧
            cur.slot_offset > add16 next.slot_offset next.size ∧
            cur.slot_offset - add16 next.slot_offset next.size ≥ input_size % U16MOD then
          some (add16 next.slot_offset next.size)
        else
          findStartLoop slot_vec input_size fuel (counter + 1)
    else none

/-- The body of `Page::find_free`, as a function of the slot directory it
reads (`find_free` takes `&mut self` but only ever reads
`self.header.slots`): returns `[new_slot_id]` or
`[new_slot_id, start_index]` exactly as the source builds `ret_vec`.  The
source also builds a sorted, reversed `offset_vec`, which it never reads
afterwards; that dead local is omitted. -/
def findFreeH (slot_vec : List Slot) (input_size : Nat) : List Nat :=
  let vec_len := slot_vec.length
  let id_vec := sortNat (slot_vec.map Slot.slot_id)
  let new_s_id := firstFreeId id_vec 0
  if vec_len = 0 then
    [new_s_id, PAGE_SIZE - input_size]
  else
    [new_s_id] ++ (findStartLoop slot_vec input_size (vec_len + 1) 0).toList

/-- `Page::find_free`. -/
def Page.find_free (p : Page) (input_size : Nat) : List Nat :=
  findFreeH p.header.slots input_size

/-- `Page::add_value`.  Returns the updated page and `Option SlotId`.
`place_in[1]` is read with a default because the loop always pushes a
start index (see `findStartLoop`); the source would panic otherwise.
The new slot's fields and the returned id pass through `as u16`/`as SlotId`
casts, and the free-space counter update is a `u16` subtraction of
`(input_len + size_of(Slot)) as u16` with `size_of(Slot) = 6`. -/
def Page.add_value (p : Page) (bytes : List Nat) : Page × Option Nat :=
  let input_len := bytes.length
  let place_in := p.find_free input_len
  let new_id := place_in.getD 0 0
  let start_index := place_in.getD 1 0
  if input_len > p.header.largest_free_space then
    (p, none)
  else
    ({ header := { page_id := p.header.page_id,
                   slots := p.header.slots ++
                     [Slot.new (new_id % U16MOD) (start_index % U16MOD) (input_len % U16MOD)],
                   largest_free_space :=
                     sub16 p.header.largest_free_space ((input_len + 6) % U16MOD) },
       data := writeRange p.data start_index bytes },
     some (new_id % U16MOD))

/-- `Page::get_value`.  The source sorts a copy of the slot ids before the
membership test; sorting does not change membership, so the test is taken
on the unsorted ids.  `end_index = slot_offset + size` is a `u16` addition. -/
def Page.get_value (p : Page) (slot_id : Nat) : Option (List Nat) :=
  let slot_vec := p.header.slots
  if ¬ (slot_vec.map Slot.slot_id).contains slot_id then none
  else
    let index := slot_vec.findIdx (fun s => s.slot_id == slot_id)
    let start_index := (slot_vec.getD index default).slot_offset
    let end_index := add16 start_index (slot_vec.getD index default).size
    some (extractRange p.data start_index (end_index - start_index))

/-- `Page::delete_value`.  For `slot_id == 0` the source takes the zeroing
start from `slot_vec[0]` — the directory's first entry, indexed by the
slot id used as a position — and zeroes up to the end of the page; for any
other id it locates the entry by id and zeroes its `[offset, offset+size)`
range.  As in `get_value`, the sorted id copy feeding the membership test
is replaced by the unsorted ids.  `largest_free_space` is not updated. -/
def Page.delete_value (p : Page) (slot_id : Nat) : Page × Option Unit :=
  if ¬ (p.header.slots.map Slot.slot_id).contains slot_id then (p, none)
  else if slot_id = 0 then
    let start_index := (p.header.slots.getD 0 default).slot_offset
    let index := p.header.slots.findIdx (fun s => s.slot_id == slot_id)
    ({ header := { page_id := p.header.page_id,
                   slots := p.header.slots.eraseIdx index,
                   largest_free_space := p.header.largest_free_space },
       data := zeroRange p.data start_index (PAGE_SIZE - start_index) },
     some ())
  else
    let index := p.header.slots.findIdx (fun s => s.slot_id == slot_id)
    let sl := p.header.slots.getD index default
    let end_index := add16 sl.slot_offset sl.size
    ({ header := { page_id := p.header.page_id,
                   slots := p.header.slots.eraseIdx index,
                   largest_free_space := p.header.largest_free_space },
       data := zeroRange p.data sl.slot_offset (end_index - sl.slot_offset) },
     some ())

/-- `u16::to_le_bytes`: little-endian byte pair of a `u16` value. -/
def le16 (x : Nat) : List Nat := [x % 256, x / 256 % 256]

/-- `u16::from_le_bytes` on two consecutive bytes of a byte block. -/
def leRead (data : Nat → Nat) (i : Nat) : Nat :=
  data i + 256 * data (i + 1)

/-- The serialized slot-directory entry of one slot (6 bytes, as pushed by
the `for slot in slot_vec` loop of `get_bytes`). -/
def serSlot (s : Slot) : List Nat :=
  le16 s.slot_id ++ le16 s.slot_offset ++ le16 s.size

/-- The `header_info` vector built by `get_bytes` — page id, slot count
(`len() as u16`), then each directory entry in order — as a function of
the header it serializes. -/
def headerInfoH (h : Header) : List Nat :=
  le16 h.page_id ++ le16 (h.slots.length % U16MOD) ++ h.slots.flatMap serSlot

/-- The `header_info` vector built by `get_bytes` for a page. -/
def headerInfo (p : Page) : List Nat := headerInfoH p.header

/-- `Page::get_bytes`.  Starts from a copy of the data array, overlays
`header_info` on its first bytes, and panics — modelled as `none` — when
`header_info.len() > largest_free_space`.  The result stands for the
returned `PAGE_SIZE`-byte vector; only indices below `PAGE_SIZE` are ever
read from it. -/
def Page.get_bytes (p : Page) : Option (Nat → Nat) :=
  let header_info := headerInfo p
  if header_info.length > p.header.largest_free_space then none
  else
    some fun i =>
      if i < header_info.length then header_info.getD i 0 else p.data i

/-- The slot-reading loop of `from_bytes`: reads `count` six-byte directory
entries starting at byte `index`, updating the running free-space estimate
exactly as the source does (`if largest_free_space > size { -= size } else { 0 }`). -/
def readSlots (data : Nat → Nat) : Nat → Nat → Nat → List Slot × Nat
  | 0, _, lfs => ([], lfs)
  | count + 1, index, lfs =>
    let slot_id := leRead data index
    let offset := leRead data (index + 2)
    let size := leRead data (index + 4)
    let lfs2 := if lfs > size then lfs - size else 0
    let rest := readSlots data count (index + 6) lfs2
    (Slot.new slot_id offset size :: rest.1, rest.2)

/-- `Page::from_bytes`.  The initial free-space estimate is
`PAGE_SIZE - (size_of(PageId) + size_of(Slot)·slot_num + size_of(u16))`;
the final value passes through an `as u16` cast.  The source clones the
input into a `[u8; PAGE_SIZE]` (panicking unless the input is exactly
`PAGE_SIZE` bytes; every input used below stands for a `PAGE_SIZE`-byte
block), so the data array is the input block itself. -/
def Page.from_bytes (data : Nat → Nat) : Page :=
  let page_id := leRead data 0
  let slot_num := leRead data 2
  let lfs0 := PAGE_SIZE - (2 + 6 * slot_num + 2)
  let res := readSlots data slot_num 4 lfs0
  { header := { page_id := page_id, slots := res.1,
                largest_free_space := res.2 % U16MOD },
    data := data }

/-- `Page::get_largest_free_contiguous_space`. -/
def Page.get_largest_free_contiguous_space (p : Page) : Nat :=
  p.header.largest_free_space

/-- The body of `PageIter::next` iterated to exhaustion
(`while slot <= slot_count`), with `fuel` bounding the iteration count
(callers pass `slot_count + 2`, one more than the loop can run): collects
`get_value(slot)` for `slot = lo, lo+1, …` while `slot ≤ slot_count`,
skipping `None` results. -/
def pageIterItems (p : Page) (slot_count : Nat) : Nat → Nat → List (List Nat)
  | 0, _ => []
  | fuel + 1, slot =>
    if slot ≤ slot_count then
      match p.get_value slot with
      | some d => d :: pageIterItems p slot_count fuel (slot + 1)
      | none => pageIterItems p slot_count fuel (slot + 1)
    else []

/-- `Page::into_iter` followed by draining the iterator: `slot` starts at 0
and `slot_count` is the number of directory entries at creation. -/
def Page.intoIterItems (p : Page) : List (List Nat) :=
  pageIterItems p p.header.slots.length (p.header.slots.length + 2) 0

/-- `ValueId` from `common/src/ids.rs` (fields `segment_id`, `page_id`,
`slot_id` are `Option`s in the source as well). -/
structure ValueId where
  container_id : Nat
  segment_id : Option Nat
  page_id : Option Nat
  slot_id : Option Nat
deriving Repr, DecidableEq

/-- A heap file's on-disk state: the byte content of its backing file,
as a length plus the bytes (indices at or above `size` are not part of
the file). -/
structure HFile where
  size : Nat
  bytes : Nat → Nat

/-- A freshly created, empty heap file (`HeapFile::new` on a new path). -/
def HFile.empty : HFile := ⟨0, fun _ => 0⟩

/-- `HeapFile::num_pages`: file length divided by `PAGE_SIZE`. -/
def num_pages (hf : HFile) : Nat := hf.size / PAGE_SIZE

/-- `HeapFile::read_page_from_file`.  The source seeks to
`PAGE_SIZE * pid`, calls `read_exact` into a zero-initialized buffer and
**discards the result** (`file.read_exact(&mut buffer);`), then
deserializes the buffer and returns `Ok` unconditionally.  A read at or
past the end of the file fills only the bytes that exist and leaves the
rest of the buffer zeroed, so an out-of-range page id yields a zero
buffer instead of an error. -/
def read_page_from_file (hf : HFile) (pid : Nat) : Except Unit Page :=
  let start_index := PAGE_SIZE * pid
  let buffer := fun i => if start_index + i < hf.size then hf.bytes (start_index + i) else 0
  Except.ok (Page.from_bytes buffer)

/-- `HeapFile::write_page_to_file`: serializes the page (propagating the
`get_bytes` panic as `none`) and writes its `PAGE_SIZE` bytes at offset
`page_id * PAGE_SIZE`, extending the file as needed. -/
def write_page_to_file (hf : HFile) (page : Page) : Option HFile :=
  (page.get_bytes).map fun bytes =>
    let off := page.header.page_id * PAGE_SIZE
    ⟨max hf.size (off + PAGE_SIZE),
     fun i => if off ≤ i ∧ i < off + PAGE_SIZE then bytes (i - off) else hf.bytes i⟩

/-- The page-scan loop of `StorageManager::insert_value`
(`while page_id < num_pages`): reads each page and tries `add_value`.
On success the source returns the `ValueId` built from the page's own
header id and the slot id — without ever writing the modified page back.
`remaining` counts the pages left to visit. -/
def insertLoop (hf : HFile) (value : List Nat) : Nat → Nat → Option (Nat × Nat)
  | _, 0 => none
  | page_id, r + 1 =>
    match read_page_from_file hf page_id with
    | Except.ok page =>
      match (page.add_value value).2 with
      | some slot_id => some (page.header.page_id, slot_id)
      | none => insertLoop hf value (page_id + 1) r
    | Except.error _ => none

/-- `StorageManager::insert_value` for one container (the registry lookup
is environment; the container's file stands for the heap file).
The source panics — modelled as `none` — when `value.len() > PAGE_SIZE`;
the loop's read-error arm also panics (unreachable, reads never fail).
When no page accepts the value, the source writes a **fresh empty page**
(`Page::new(page_id)`) to the file and returns
`ValueId { page_id, slot_id: Some(0) }` without inserting the value. -/
def insert_value (hf : HFile) (container_id : Nat) (value : List Nat) :
    Option (HFile × ValueId) :=
  if value.length > PAGE_SIZE then none
  else
    match insertLoop hf value 0 (num_pages hf) with
    | some r =>
      some (hf,
        { container_id := container_id, segment_id := none,
          page_id := some r.1, slot_id := some r.2 })
    | none =>
      let page_id := num_pages hf
      match write_page_to_file hf (Page.new page_id) with
      | some hf2 =>
        some (hf2,
          { container_id := container_id, segment_id := none,
            page_id := some page_id, slot_id := some 0 })
      | none => none

/-- Modelled from the spec: `StorageManager::get_value` in the source is an
unimplemented placeholder (a `TODO milestone hs` panic), so the lookup is
taken from spec §4.4/§8 — resolve the `ValueId` by reading the named page
and returning the bytes at its slot; a missing page or slot is the
`not-found` error, modelled as `none`. -/
def sm_get_value (hf : HFile) (id : ValueId) : Option (List Nat) :=
  match id.page_id, id.slot_id with
  | some pid, some sid =>
    if pid < num_pages hf then
      match read_page_from_file hf pid with
      | Except.ok page => page.get_value sid
      | Except.error _ => none
    else none
  | _, _ => none

/-- Two ranges of bytes `[a, a + la)` and `[b, b + lb)` intersect. -/
def rangesOverlap (a la b lb : Nat) : Prop := b < a + la ∧ a < b + lb

instance (a la b lb : Nat) : Decidable (rangesOverlap a la b lb) := by
  unfold rangesOverlap
  infer_instance

/-- Project a slot directory to `(slot_id, slot_offset, size)` triples. -/
def slotTriples (p : Page) : List (Nat × Nat × Nat) :=
  p.header.slots.map fun s => (s.slot_id, s.slot_offset, s.size)

/-- The serialized page produced by `get_bytes` when it does not panic: the
data array with `header_info` overlaid on its first bytes
(`get_bytes_eq_some` below proves the agreement with `get_bytes`). -/
def overlay (p : Page) : Nat → Nat :=
  fun i => if i < (headerInfo p).length then (headerInfo p).getD i 0 else p.data i

/-- The directory-and-result component of `add_value`: `add_value` updates
the header from the input header and the payload length only, and touches
the data array separately (`add_value_fst_header` / `add_value_snd` below
prove the agreement). -/
def addHeader (h : Header) (input_len : Nat) : Header × Option Nat :=
  let place_in := findFreeH h.slots input_len
  let new_id := place_in.getD 0 0
  let start_index := place_in.getD 1 0
  if input_len > h.largest_free_space then
    (h, none)
  else
    ({ page_id := h.page_id,
       slots := h.slots ++
         [Slot.new (new_id % U16MOD) (start_index % U16MOD) (input_len % U16MOD)],
       largest_free_space := sub16 h.largest_free_space ((input_len + 6) % U16MOD) },
     some (new_id % U16MOD))

/-- The directory-and-result component of `delete_value`: both branches of
`delete_value` update the header identically (only the zeroed data range
differs); `delete_value_fst_header` / `delete_value_snd` below prove the
agreement. -/
def delHeader (h : Header) (slot_id : Nat) : Header × Option Unit :=
  if ¬ (h.slots.map Slot.slot_id).contains slot_id then (h, none)
  else
    ({ page_id := h.page_id,
       slots := h.slots.eraseIdx (h.slots.findIdx fun s => s.slot_id == slot_id),
       largest_free_space := h.largest_free_space },
     some ())

-- Concrete traces used by the theorems below.

/-- Page after `add(100 × 1); add(100 × 2); delete 0; add(50 × 3)`:
the directory is `[(1, 3896, 100), (0, 3846, 50)]`, so its first entry
belongs to slot 1. -/
def c2_p4 : Page :=
  (((((Page.new 0).add_value (List.replicate 100 1)).1.add_value
    (List.replicate 100 2)).1.delete_value 0).1.add_value
    (List.replicate 50 3)).1

/-- Page after `add(5 × 1); add(5 × 2); add(5 × 3); delete 1`:
directory `[(0, 4091, 5), (2, 4081, 5)]` in insertion order. -/
def c3_p3 : Page :=
  ((((Page.new 0).add_value (List.replicate 5 1)).1.add_value
    (List.replicate 5 2)).1.add_value
    (List.replicate 5 3)).1.delete_value 1 |>.1

/-- `c3_p3` after re-inserting 5 bytes: the hole at `[4086, 4091)` is
refilled by slot 1, appended after slot 2 in the directory. -/
def c3_p4 : Page := (c3_p3.add_value (List.replicate 5 7)).1

/-- Page after `add(10 × 1); add(10 × 2); add(10 × 3); delete 0; delete 1`:
only slot 2 is live, and the directory holds one entry. -/
def c8_p : Page :=
  (((((Page.new 0).add_value (List.replicate 10 1)).1.add_value
    (List.replicate 10 2)).1.add_value
    (List.replicate 10 3)).1.delete_value 0).1.delete_value 1 |>.1

/-- Page after two 2033-byte inserts (values 3 and 4): records at
`[2063, 4096)` and `[30, 2063)`, free-space counter 14. -/
def c4_p : Page :=
  (((Page.new 0).add_value (List.replicate 2033 3)).1.add_value
    (List.replicate 2033 4)).1

/-- A well-formed one-slot page used to exercise the serialization round
trip: page id 5, slot 0 at `[4090, 4096)`, free-space counter 4000. -/
def c4_pw : Page := ⟨⟨5, [⟨0, 4090, 6⟩], 4000⟩, fun _ => 9⟩

/-- A well-formed two-slot page used to exercise `delete_value` on a
non-zero slot id: page id 3, slot 0 at `[4091, 4096)`, slot 1 at
`[4086, 4091)`, all data bytes 7. -/
def c10_pw : Page := ⟨⟨3, [⟨0, 4091, 5⟩, ⟨1, 4086, 5⟩], 4080⟩, fun _ => 7⟩

-- Sanity examples mirroring the source's unit tests
-- (hs_page_create, hs_page_simple_insert, hs_page_get_value).
example : (Page.new 0).get_largest_free_contiguous_space = 4092 := by decide
example : ((Page.new 0).add_value (List.replicate 10 1)).2 = some 0 := by decide
example :
    (((Page.new 0).add_value (List.replicate 10 1)).1.add_value
      (List.replicate 10 2)).2 = some 1 := by decide
example :
    (((Page.new 0).add_value [7, 8, 9]).1.get_value 0) = some [7, 8, 9] := by
  decide

/-- C1: inserting into a fresh (zero-page) container returns
`ValueId { container_id, page_id: Some 0, slot_id: Some 0 }` and grows the
file to one page, but the page written is a fresh empty page that does not
contain the payload: the spec-modelled `get_value` on the returned locator
yields nothing instead of `[1, 2, 3]`, refuting the insert/get round-trip
claim. -/
theorem C1_insert_never_stores_value :
    (insert_value HFile.empty 7 [1, 2, 3]).map
        (fun r => (r.2, num_pages r.1, sm_get_value r.1 r.2)) =
      some (⟨7, none, some 0, some 0⟩, 1, none) := by
  decide

/-- C2: in `c2_p4` the value `replicate 100 2` was written by the
`add_value` that returned slot id 1, no `delete_value 1` was ever issued,
and slot 1 is still readable before the final delete; yet after
`delete_value 0` — whose zeroing start is taken from the directory's
first entry, which belongs to slot 1 — `get_value 1` returns 100 zero
bytes instead of the stored value. -/
theorem C2_get_after_delete_zero_wrong_bytes :
    ((((Page.new 0).add_value (List.replicate 100 1)).1.add_value
        (List.replicate 100 2)).2 = some 1) ∧
    c2_p4.get_value 1 = some (List.replicate 100 2) ∧
    (c2_p4.delete_value 0).2 = some () ∧
    (c2_p4.delete_value 0).1.get_value 1 = some (List.replicate 100 0) ∧
    List.replicate 100 0 ≠ List.replicate 100 2 := by
  decide

/-- C3: in `c3_p3` the re-insert of 5 bytes is assigned slot id 1 at
offset 4086; the subsequent `add_value` of another 5 bytes returns
`some 3` and places slot 3 at the same offset 4086, so the new record's
range `[4086, 4091)` coincides with live slot 1's range — the chosen
offset overlaps a live record, and reading slot 1 afterwards returns the
newer value 9 instead of the stored 7. -/
theorem C3_add_overlaps_live_slot :
    (c3_p3.add_value (List.replicate 5 7)).2 = some 1 ∧
    (c3_p4.add_value (List.replicate 5 9)).2 = some 3 ∧
    slotTriples (c3_p4.add_value (List.replicate 5 9)).1 =
      [(0, 4091, 5), (2, 4081, 5), (1, 4086, 5), (3, 4086, 5)] ∧
    rangesOverlap 4086 5 4086 5 ∧
    ((c3_p4.add_value (List.replicate 5 9)).1.get_value 1 =
      some (List.replicate 5 9)) := by
  decide

/-- C6: the heap file is empty (`num_pages = 0`), so reading page 0 is out
of range; yet `read_page_from_file` returns `Ok` with a zero-filled page
(page id 0, empty directory, zero data bytes), because the `read_exact`
error is discarded — refuting the claim that an out-of-range read is an
error and never a silent zero page. -/
theorem C6_out_of_range_read_returns_zero_page :
    num_pages HFile.empty = 0 ∧
    ((read_page_from_file HFile.empty 0).toOption.map
        (fun p => (p.header.page_id, p.header.slots, extractRange p.data 0 8)) =
      some (0, [], List.replicate 8 0)) := by
  decide

/-- C8: in `c8_p` slot 2 is live (it still holds `replicate 10 3`) but it
is the only entry, so `slot_count = 1`; the consuming iterator probes only
slot ids `0` and `1` and yields nothing, so the live slot with
`slot_id ≥ number of live slots` is never yielded, refuting the claim. -/
theorem C8_iterator_misses_high_slot_id :
    c8_p.get_value 2 = some (List.replicate 10 3) ∧
    c8_p.header.slots.length = 1 ∧
    c8_p.intoIterItems = [] := by
  decide

-- Agreement lemmas between the page operations and their header-level
-- components, and facts about the serialized layout.

/-- `add_value` updates the header as `addHeader` does. -/
lemma add_value_fst_header (p : Page) (v : List Nat) :
    (p.add_value v).1.header = (addHeader p.header v.length).1 := by
  unfold Page.add_value addHeader Page.find_free
  dsimp only
  split_ifs <;> rfl

/-- `add_value` returns the slot id computed by `addHeader`. -/
lemma add_value_snd (p : Page) (v : List Nat) :
    (p.add_value v).2 = (addHeader p.header v.length).2 := by
  unfold Page.add_value addHeader Page.find_free
  dsimp only
  split_ifs <;> rfl

/-- `delete_value` updates the header as `delHeader` does. -/
lemma delete_value_fst_header (p : Page) (sid : Nat) :
    (p.delete_value sid).1.header = (delHeader p.header sid).1 := by
  unfold Page.delete_value delHeader
  dsimp only
  split_ifs <;> rfl

/-- `delete_value` returns the result computed by `delHeader`. -/
lemma delete_value_snd (p : Page) (sid : Nat) :
    (p.delete_value sid).2 = (delHeader p.header sid).2 := by
  unfold Page.delete_value delHeader
  dsimp only
  split_ifs <;> rfl

/-- `get_bytes` panics exactly when the serialized header is longer than
the recorded free-space counter. -/
lemma get_bytes_eq_none (p : Page)
    (h : (headerInfo p).length > p.header.largest_free_space) :
    p.get_bytes = none := by
  simp only [Page.get_bytes]
  rw [if_pos h]

/-- When the serialized header fits, `get_bytes` returns the overlay of the
header on the data array. -/
lemma get_bytes_eq_some (p : Page)
    (h : ¬ (headerInfo p).length > p.header.largest_free_space) :
    p.get_bytes = some (overlay p) := by
  simp only [Page.get_bytes]
  rw [if_neg h]
  rfl

/-- `slotTriples` reads the header only. -/
lemma slotTriples_of_header (p : Page) :
    slotTriples p = p.header.slots.map fun s => (s.slot_id, s.slot_offset, s.size) := rfl

/-- Bytes at or past the serialized header are the page's own data bytes. -/
lemma overlay_ge (p : Page) (i : Nat) (hi : (headerInfo p).length ≤ i) :
    overlay p i = p.data i := by
  unfold overlay
  rw [if_neg (Nat.not_lt.2 hi)]

/-- A serialized directory entry is six bytes. -/
lemma serSlot_length (s : Slot) : (serSlot s).length = 6 := rfl

/-- The serialized directory is six bytes per entry. -/
lemma flat_serSlot_length (l : List Slot) : (l.flatMap serSlot).length = 6 * l.length := by
  induction l with
  | nil => rfl
  | cons s t ih =>
    simp only [List.flatMap_cons, List.length_append, serSlot_length, ih, List.length_cons]
    omega

/-- The serialized header, written out byte by byte. -/
lemma headerInfoH_cons (h : Header) :
    headerInfoH h = h.page_id % 256 :: h.page_id / 256 % 256 ::
      h.slots.length % U16MOD % 256 :: h.slots.length % U16MOD / 256 % 256 ::
      h.slots.flatMap serSlot := by
  simp [headerInfoH, le16]

/-- The serialized header occupies `4 + 6·n` bytes for `n` directory
entries. -/
lemma headerInfoH_length (h : Header) : (headerInfoH h).length = 4 + 6 * h.slots.length := by
  simp only [headerInfoH, List.length_append, flat_serSlot_length, le16, List.length_cons,
    List.length_nil]

/-- Little-endian 16-bit serialization round-trips below `2^16`. -/
lemma le_roundtrip (x : Nat) (hx : x < U16MOD) : x % 256 + 256 * (x / 256 % 256) = x := by
  have h2 : x / 256 < 256 := by
    unfold U16MOD at hx
    omega
  rw [Nat.mod_eq_of_lt h2]
  omega

/-- Byte `4 + j` of the serialized page is byte `j` of the serialized
directory while `j` stays within the directory. -/
lemma overlay_flat (p : Page) (j : Nat) (hj : j < 6 * p.header.slots.length) :
    overlay p (4 + j) = (p.header.slots.flatMap serSlot).getD j 0 := by
  have hlen : (headerInfo p).length = 4 + 6 * p.header.slots.length := headerInfoH_length _
  unfold overlay
  rw [if_pos (by omega)]
  show (headerInfoH p.header).getD (4 + j) 0 = _
  rw [headerInfoH_cons, Nat.add_comm]
  simp [List.getD_cons_succ]

/-- Reading the first two serialized bytes recovers the page id. -/
lemma overlay_pid (p : Page) (hpid : p.header.page_id < U16MOD) :
    leRead (overlay p) 0 = p.header.page_id := by
  have hlen : (headerInfo p).length = 4 + 6 * p.header.slots.length := headerInfoH_length _
  unfold leRead overlay
  rw [if_pos (by omega), if_pos (by omega)]
  show (headerInfoH p.header).getD 0 0 + 256 * (headerInfoH p.header).getD 1 0 = _
  rw [headerInfoH_cons]
  simp only [List.getD_cons_zero, List.getD_cons_succ]
  exact le_roundtrip _ hpid

/-- Reading serialized bytes 2 and 3 recovers the slot count. -/
lemma overlay_count (p : Page) (hcount : p.header.slots.length < U16MOD) :
    leRead (overlay p) 2 = p.header.slots.length := by
  have hlen : (headerInfo p).length = 4 + 6 * p.header.slots.length := headerInfoH_length _
  unfold leRead overlay
  rw [if_pos (by omega), if_pos (by omega)]
  show (headerInfoH p.header).getD 2 0 + 256 * (headerInfoH p.header).getD 3 0 = _
  rw [headerInfoH_cons]
  simp only [List.getD_cons_zero, List.getD_cons_succ]
  rw [le_roundtrip _ (Nat.mod_lt _ (by unfold U16MOD; omega))]
  exact Nat.mod_eq_of_lt hcount

/-- A serialized directory entry, written out byte by byte. -/
lemma serSlot_cons (s : Slot) :
    serSlot s = [s.slot_id % 256, s.slot_id / 256 % 256, s.slot_offset % 256,
      s.slot_offset / 256 % 256, s.size % 256, s.size / 256 % 256] := by
  simp [serSlot, le16]

/-- The directory-reading loop of `from_bytes` recovers a directory whose
serialization it is handed, entry by entry, for any running free-space
estimate. -/
lemma readSlots_serialized (bytes : Nat → Nat) (l : List Slot) :
    ∀ base lfs : Nat,
      (∀ j, j < 6 * l.length → bytes (base + j) = (l.flatMap serSlot).getD j 0) →
      (∀ sl ∈ l, sl.slot_id < U16MOD ∧ sl.slot_offset < U16MOD ∧ sl.size < U16MOD) →
      (readSlots bytes l.length base lfs).1 = l := by
  induction l with
  | nil => intro base lfs _ _; rfl
  | cons sl tl ih =>
    intro base lfs hb hf
    obtain ⟨hid, hoff, hsz⟩ := hf sl (List.mem_cons_self _ _)
    have hserf : ∀ j, j < 6 →
        ((sl :: tl).flatMap serSlot).getD j 0 = (serSlot sl).getD j 0 := by
      intro j hj
      rw [List.flatMap_cons, List.getD_append _ _ _ _ (by rw [serSlot_length]; omega)]
    have hlen : (sl :: tl).length = tl.length + 1 := rfl
    have h0 : bytes base = sl.slot_id % 256 := by
      have h := hb 0 (by simp only [hlen]; omega)
      rw [Nat.add_zero, hserf 0 (by omega), serSlot_cons] at h
      simpa using h
    have h1 : bytes (base + 1) = sl.slot_id / 256 % 256 := by
      have h := hb 1 (by simp only [hlen]; omega)
      rw [hserf 1 (by omega), serSlot_cons] at h
      simpa using h
    have h2 : bytes (base + 2) = sl.slot_offset % 256 := by
      have h := hb 2 (by simp only [hlen]; omega)
      rw [hserf 2 (by omega), serSlot_cons] at h
      simpa using h
    have h3 : bytes (base + 3) = sl.slot_offset / 256 % 256 := by
      have h := hb 3 (by simp only [hlen]; omega)
      rw [hserf 3 (by omega), serSlot_cons] at h
      simpa using h
    have h4 : bytes (base + 4) = sl.size % 256 := by
      have h := hb 4 (by simp only [hlen]; omega)
      rw [hserf 4 (by omega), serSlot_cons] at h
      simpa using h
    have h5 : bytes (base + 5) = sl.size / 256 % 256 := by
      have h := hb 5 (by simp only [hlen]; omega)
      rw [hserf 5 (by omega), serSlot_cons] at h
      simpa using h
    show (readSlots bytes (tl.length + 1) base lfs).1 = sl :: tl
    simp only [readSlots]
    have hhd : Slot.new (leRead bytes base) (leRead bytes (base + 2))
        (leRead bytes (base + 4)) = sl := by
      unfold leRead Slot.new
      have e3 : base + 2 + 1 = base + 3 := by omega
      have e5 : base + 4 + 1 = base + 5 := by omega
      rw [e3, e5, h0, h1, h2, h3, h4, h5, le_roundtrip _ hid, le_roundtrip _ hoff,
        le_roundtrip _ hsz]
    have htl : ∀ lfs2 : Nat, (readSlots bytes tl.length (base + 6) lfs2).1 = tl := by
      intro lfs2
      apply ih
      · intro j hj
        have h := hb (6 + j) (by simp only [hlen]; omega)
        have e : base + (6 + j) = base + 6 + j := by omega
        rw [e] at h
        rw [h, List.flatMap_cons,
          List.getD_append_right _ _ _ _ (by rw [serSlot_length]; omega)]
        have e2 : 6 + j - (serSlot sl).length = j := by rw [serSlot_length]; omega
        rw [e2]
      · intro x hx
        exact hf x (List.mem_cons_of_mem _ hx)
    rw [hhd, htl]

/-- Two pages with the same slot directory whose data arrays agree on
every live slot's byte range return the same `get_value` results. -/
lemma get_value_congr (q p : Page) (hs : q.header.slots = p.header.slots)
    (hd : ∀ sl ∈ p.header.slots, ∀ k, q.data (sl.slot_offset + k) = p.data (sl.slot_offset + k)) :
    ∀ s, q.get_value s = p.get_value s := by
  intro s
  unfold Page.get_value
  dsimp only
  rw [hs]
  by_cases hc : (p.header.slots.map Slot.slot_id).contains s = true
  · rw [if_neg (not_not_intro hc), if_neg (not_not_intro hc)]
    have hmem2 : s ∈ p.header.slots.map Slot.slot_id := by
      simpa [List.contains, List.elem_iff] using hc
    obtain ⟨sl, hsl, hid⟩ := List.mem_map.1 hmem2
    have hex : ∃ x ∈ p.header.slots, (fun t => t.slot_id == s) x = true :=
      ⟨sl, hsl, by simp [hid]⟩
    have hlt := List.findIdx_lt_length_of_exists hex
    have hmem3 :
        p.header.slots.getD (p.header.slots.findIdx fun t => t.slot_id == s) default ∈
          p.header.slots := by
      rw [List.getD_eq_getElem _ _ hlt]
      exact List.getElem_mem _
    congr 1
    unfold extractRange
    apply List.map_congr_left
    intro k _
    exact hd _ hmem3 k
  · rw [if_pos hc, if_pos hc]

/-- When slot ids are distinct, the index search of `delete_value` finds
exactly the entry of the requested slot, and removing it by position is
removing it by value. -/
lemma findIdx_erase_spec (l : List Slot) (sl : Slot) (hmem : sl ∈ l)
    (hnd : (l.map Slot.slot_id).Nodup) :
    l.getD (l.findIdx fun t => t.slot_id == sl.slot_id) default = sl ∧
    l.eraseIdx (l.findIdx fun t => t.slot_id == sl.slot_id) = l.erase sl := by
  induction l with
  | nil => cases hmem
  | cons h tl ih =>
    rw [List.map_cons, List.nodup_cons] at hnd
    obtain ⟨hh, hndtl⟩ := hnd
    by_cases he : h.slot_id = sl.slot_id
    · have hhsl : h = sl := by
        rcases List.mem_cons.1 hmem with rfl | htl
        · rfl
        · exact absurd (he ▸ List.mem_map_of_mem Slot.slot_id htl) hh
      subst hhsl
      rw [List.findIdx_cons]
      simp only [beq_self_eq_true, cond_true]
      exact ⟨rfl, by rw [List.eraseIdx_cons_zero, List.erase_cons_head]⟩
    · have hsl_tl : sl ∈ tl := by
        rcases List.mem_cons.1 hmem with rfl | htl
        · exact absurd rfl he
        · exact htl
      obtain ⟨ih1, ih2⟩ := ih hsl_tl hndtl
      have hne : ¬(h == sl) = true := by
        simp only [beq_iff_eq]
        intro heq
        exact he (by rw [heq])
      rw [List.findIdx_cons]
      have hpred : (h.slot_id == sl.slot_id) = false := by
        simp only [beq_eq_false_iff_ne, ne_eq]
        exact he
      rw [hpred]
      simp only [cond_false]
      refine ⟨by simpa using ih1, ?_⟩
      rw [List.eraseIdx_cons_succ, ih2, List.erase_cons_tail hne]

/-- C4 (counterexample): for the page `c4_p`, reachable from `Page::new` by
two `add_value` calls, the serialize/deserialize round trip claimed by the
spec does not hold — `get_bytes` panics (modelled `none`), so no
`from_bytes (get_bytes P)` page with the same id, directory and live
values exists. -/
theorem C4_roundtrip_fails_on_c4_p :
    ¬ ∃ bytes, c4_p.get_bytes = some bytes ∧
      (Page.from_bytes bytes).header.page_id = c4_p.header.page_id ∧
      (Page.from_bytes bytes).header.slots = c4_p.header.slots ∧
      ∀ s, (Page.from_bytes bytes).get_value s = c4_p.get_value s := by
  have h2 : c4_p.header = ⟨0, [⟨0, 2063, 2033⟩, ⟨1, 30, 2033⟩], 14⟩ := by
    unfold c4_p
    rw [add_value_fst_header, add_value_fst_header, List.length_replicate,
      List.length_replicate]
    decide
  have hgb : c4_p.get_bytes = none :=
    get_bytes_eq_none _ (by unfold headerInfo; rw [h2]; decide)
  rintro ⟨bytes, hb, -⟩
  rw [hgb] at hb
  cases hb

/-- C4 (amended): for every page whose serialized header fits within the
recorded free-space counter (so `get_bytes` returns), whose page id, slot
count and slot fields are 16-bit values (as the source's types force), and
whose live slots all lie between the serialized directory and the end of
the page, `from_bytes (get_bytes P)` has the same `page_id`, the same slot
directory, and the same `get_value` result at every slot id. -/
theorem C4_roundtrip_holds (p : Page)
    (hpid : p.header.page_id < U16MOD)
    (hcount : p.header.slots.length < U16MOD)
    (hfields : ∀ sl ∈ p.header.slots,
      sl.slot_id < U16MOD ∧ sl.slot_offset < U16MOD ∧ sl.size < U16MOD)
    (hfit : (headerInfo p).length ≤ p.header.largest_free_space)
    (habove : ∀ sl ∈ p.header.slots,
      (headerInfo p).length ≤ sl.slot_offset ∧ sl.slot_offset + sl.size ≤ PAGE_SIZE) :
    ∃ bytes, p.get_bytes = some bytes ∧
      (Page.from_bytes bytes).header.page_id = p.header.page_id ∧
      (Page.from_bytes bytes).header.slots = p.header.slots ∧
      ∀ s, (Page.from_bytes bytes).get_value s = p.get_value s := by
  have hS : (Page.from_bytes (overlay p)).header.slots = p.header.slots := by
    unfold Page.from_bytes
    dsimp only
    rw [overlay_count p hcount]
    exact readSlots_serialized (overlay p) p.header.slots 4 _
      (fun j hj => overlay_flat p j hj) hfields
  refine ⟨overlay p, get_bytes_eq_some p (by omega), ?_, hS, ?_⟩
  · unfold Page.from_bytes
    dsimp only
    exact overlay_pid p hpid
  · apply get_value_congr _ _ hS
    intro sl hsl k
    show overlay p (sl.slot_offset + k) = p.data (sl.slot_offset + k)
    exact overlay_ge p _ (by have := (habove sl hsl).1; omega)

/-- Witness for the amended C4 round trip at the concrete page `c4_pw`. -/
theorem C4_roundtrip_holds_witness :
    c4_pw.header.page_id < U16MOD ∧
    (headerInfo c4_pw).length ≤ c4_pw.header.largest_free_space ∧
    (∃ bytes, c4_pw.get_bytes = some bytes ∧
      (Page.from_bytes bytes).header.page_id = c4_pw.header.page_id ∧
      (Page.from_bytes bytes).header.slots = c4_pw.header.slots ∧
      ∀ s, (Page.from_bytes bytes).get_value s = c4_pw.get_value s) :=
  ⟨by decide, by decide,
    C4_roundtrip_holds c4_pw (by decide) (by decide) (by decide) (by decide) (by decide)⟩

/-- C5: for any 3000-byte payloads, inserting one and then deleting it
leaves the directory empty — the whole data region is actually free —
yet re-inserting a 3000-byte value returns `none`, because `delete_value`
never returns the freed record and directory space to the
`largest_free_space` counter that gates `add_value`. -/
theorem C5_freed_space_not_reusable (v w : List Nat)
    (hv : v.length = 3000) (hw : w.length = 3000) :
    ((Page.new 0).add_value v).2 = some 0 ∧
    ((((Page.new 0).add_value v).1.delete_value 0).2 = some ()) ∧
    (((Page.new 0).add_value v).1.delete_value 0).1.header.slots = [] ∧
    ((((Page.new 0).add_value v).1.delete_value 0).1.add_value w).2 = none := by
  have h1 : ((Page.new 0).add_value v).1.header = ⟨0, [⟨0, 1096, 3000⟩], 1086⟩ := by
    rw [add_value_fst_header, hv]; decide
  have h2 : (((Page.new 0).add_value v).1.delete_value 0).1.header = ⟨0, [], 1086⟩ := by
    rw [delete_value_fst_header, h1]; decide
  refine ⟨?_, ?_, ?_, ?_⟩
  · rw [add_value_snd, hv]; decide
  · rw [delete_value_snd, h1]; decide
  · rw [h2]
  · rw [add_value_snd, h2, hw]; decide

/-- Witness for C5 at the concrete payloads `replicate 3000 1` and
`replicate 3000 2`. -/
theorem C5_freed_space_not_reusable_witness :
    (List.replicate 3000 (1 : Nat)).length = 3000 ∧
    (List.replicate 3000 (2 : Nat)).length = 3000 ∧
    (((Page.new 0).add_value (List.replicate 3000 1)).2 = some 0 ∧
      ((((Page.new 0).add_value (List.replicate 3000 1)).1.delete_value 0).2 =
        some ()) ∧
      (((Page.new 0).add_value (List.replicate 3000 1)).1.delete_value
        0).1.header.slots = [] ∧
      ((((Page.new 0).add_value (List.replicate 3000 1)).1.delete_value
        0).1.add_value (List.replicate 3000 2)).2 = none) :=
  ⟨List.length_replicate 3000 1, List.length_replicate 3000 2,
    C5_freed_space_not_reusable _ _ (List.length_replicate 3000 1)
      (List.length_replicate 3000 2)⟩

/-- C7: the source's only size check is `value.len() > PAGE_SIZE`, enforced
by a panic.  Any 4083-byte payload — longer than the claimed limit
`PAGE_SIZE − FIXED_HEADER − 6 = 4082` — passes the check and the insert
proceeds (`isSome`), and any 4097-byte payload makes `insert_value` panic
(modelled `none`) instead of returning a caller-visible bad-argument
storage error. -/
theorem C7_size_check_wrong_threshold_and_panics (v w : List Nat)
    (hv : v.length = 4083) (hw : w.length = 4097) :
    (insert_value HFile.empty 1 v).isSome = true ∧
    insert_value HFile.empty 1 w = none := by
  constructor
  · unfold insert_value
    rw [hv, if_neg (by decide : ¬ (4083 > PAGE_SIZE))]
    rw [show num_pages HFile.empty = 0 from rfl]
    rw [show insertLoop HFile.empty v 0 0 = none from rfl]
    decide
  · unfold insert_value
    rw [hw, if_pos (by decide : (4097 > PAGE_SIZE))]

/-- Witness for C7 at the concrete payloads `replicate 4083 1` and
`replicate 4097 2`. -/
theorem C7_size_check_witness :
    (List.replicate 4083 (1 : Nat)).length = 4083 ∧
    (List.replicate 4097 (2 : Nat)).length = 4097 ∧
    ((insert_value HFile.empty 1 (List.replicate 4083 1)).isSome = true ∧
      insert_value HFile.empty 1 (List.replicate 4097 2) = none) :=
  ⟨List.length_replicate 4083 1, List.length_replicate 4097 2,
    C7_size_check_wrong_threshold_and_panics _ _ (List.length_replicate 4083 1)
      (List.length_replicate 4097 2)⟩

/-- C9: a page built from `Page::new` by two 2033-byte `add_value` calls is
reachable; its serialized header occupies bytes `[0, 16)` while its records
occupy `[30, 2063)` and `[2063, 4096)` — header and data do not overlap —
yet `get_bytes` panics (modelled `none`), because its guard compares the
header length 16 against the stale free-space counter 14.  This refutes
the claim that the overlap panic is unreachable and serialization always
returns normally. -/
theorem C9_get_bytes_panics_without_overlap (v w : List Nat)
    (hv : v.length = 2033) (hw : w.length = 2033) :
    slotTriples (((Page.new 0).add_value v).1.add_value w).1 =
      [(0, 2063, 2033), (1, 30, 2033)] ∧
    (headerInfo (((Page.new 0).add_value v).1.add_value w).1).length = 16 ∧
    (((Page.new 0).add_value v).1.add_value w).1.header.largest_free_space = 14 ∧
    (((Page.new 0).add_value v).1.add_value w).1.get_bytes = none := by
  have h1 : ((Page.new 0).add_value v).1.header = ⟨0, [⟨0, 2063, 2033⟩], 2053⟩ := by
    rw [add_value_fst_header, hv]; decide
  have h2 : (((Page.new 0).add_value v).1.add_value w).1.header =
      ⟨0, [⟨0, 2063, 2033⟩, ⟨1, 30, 2033⟩], 14⟩ := by
    rw [add_value_fst_header, h1, hw]; decide
  refine ⟨?_, ?_, ?_, ?_⟩
  · rw [slotTriples_of_header, h2]; decide
  · unfold headerInfo; rw [h2]; decide
  · rw [h2]
  · exact get_bytes_eq_none _ (by unfold headerInfo; rw [h2]; decide)

/-- Witness for C9 at the concrete payloads `replicate 2033 1` and
`replicate 2033 2`. -/
theorem C9_get_bytes_panics_witness :
    (List.replicate 2033 (1 : Nat)).length = 2033 ∧
    (List.replicate 2033 (2 : Nat)).length = 2033 ∧
    (slotTriples (((Page.new 0).add_value (List.replicate 2033 1)).1.add_value
        (List.replicate 2033 2)).1 = [(0, 2063, 2033), (1, 30, 2033)] ∧
      (headerInfo (((Page.new 0).add_value (List.replicate 2033 1)).1.add_value
        (List.replicate 2033 2)).1).length = 16 ∧
      (((Page.new 0).add_value (List.replicate 2033 1)).1.add_value
        (List.replicate 2033 2)).1.header.largest_free_space = 14 ∧
      (((Page.new 0).add_value (List.replicate 2033 1)).1.add_value
        (List.replicate 2033 2)).1.get_bytes = none) :=
  ⟨List.length_replicate 2033 1, List.length_replicate 2033 2,
    C9_get_bytes_panics_without_overlap _ _ (List.length_replicate 2033 1)
      (List.length_replicate 2033 2)⟩

/-- C10: for every page and every live slot `sl` with a non-zero slot id
(slot ids pairwise distinct, the slot's byte range inside the page),
`delete_value` succeeds, removes exactly `sl`'s directory entry, zeroes
exactly the data bytes in `[slot_offset, slot_offset + size)`, and leaves
every other data byte, the page id, and the recorded largest-free-space
counter unchanged. -/
theorem C10_delete_frame (p : Page) (sl : Slot)
    (hmem : sl ∈ p.header.slots)
    (hnd : (p.header.slots.map Slot.slot_id).Nodup)
    (h0 : sl.slot_id ≠ 0)
    (hwf : sl.slot_offset + sl.size ≤ PAGE_SIZE) :
    (p.delete_value sl.slot_id).2 = some () ∧
    (p.delete_value sl.slot_id).1.header.page_id = p.header.page_id ∧
    (p.delete_value sl.slot_id).1.header.largest_free_space =
      p.header.largest_free_space ∧
    (p.delete_value sl.slot_id).1.header.slots = p.header.slots.erase sl ∧
    (∀ i, sl.slot_offset ≤ i → i < sl.slot_offset + sl.size →
      (p.delete_value sl.slot_id).1.data i = 0) ∧
    (∀ i, i < sl.slot_offset ∨ sl.slot_offset + sl.size ≤ i →
      (p.delete_value sl.slot_id).1.data i = p.data i) := by
  have hcont : (p.header.slots.map Slot.slot_id).contains sl.slot_id = true := by
    have hm : sl.slot_id ∈ p.header.slots.map Slot.slot_id :=
      List.mem_map_of_mem Slot.slot_id hmem
    simpa [List.contains, List.elem_iff] using hm
  obtain ⟨hgetD, herase⟩ := findIdx_erase_spec p.header.slots sl hmem hnd
  have hlen : add16 sl.slot_offset sl.size - sl.slot_offset = sl.size := by
    unfold add16 U16MOD
    unfold PAGE_SIZE at hwf
    omega
  unfold Page.delete_value
  rw [if_neg (not_not_intro hcont), if_neg h0]
  dsimp only
  rw [hgetD, herase, hlen]
  refine ⟨rfl, rfl, rfl, rfl, ?_, ?_⟩
  · intro i hi1 hi2
    unfold zeroRange
    rw [if_pos ⟨hi1, hi2⟩]
  · intro i hi
    unfold zeroRange
    rw [if_neg (by omega)]

/-- Witness for C10 at the concrete page `c10_pw` and its slot 1. -/
theorem C10_delete_frame_witness :
    ((⟨1, 4086, 5⟩ : Slot) ∈ c10_pw.header.slots) ∧
    (c10_pw.header.slots.map Slot.slot_id).Nodup ∧
    ((c10_pw.delete_value 1).2 = some () ∧
      (c10_pw.delete_value 1).1.header.page_id = c10_pw.header.page_id ∧
      (c10_pw.delete_value 1).1.header.largest_free_space =
        c10_pw.header.largest_free_space ∧
      (c10_pw.delete_value 1).1.header.slots =
        c10_pw.header.slots.erase ⟨1, 4086, 5⟩ ∧
      (∀ i, 4086 ≤ i → i < 4086 + 5 → (c10_pw.delete_value 1).1.data i = 0) ∧
      (∀ i, i < 4086 ∨ 4086 + 5 ≤ i →
        (c10_pw.delete_value 1).1.data i = c10_pw.data i)) :=
  ⟨by decide, by decide,
    C10_delete_frame c10_pw ⟨1, 4086, 5⟩ (by decide) (by decide) (by decide) (by decide)⟩
